import Mathlib

/-!
Verification of the jump-email-app repository (AI Smart Email Sorter).

Part 1 embeds the frontend selection/deletion handlers from
src/frontend/src/App.js as pure functions on the relevant React state.
Part 2 models the backend pipeline (ingestion, classification,
unsubscribe) from the specification, since the backend source is not in
the repository snapshot.
-/

namespace Frontend

/-- An email row as displayed in the category view; the handlers under
study only inspect the id field. -/
structure Email where
  id : Nat
  subject : String
  deriving Repr, DecidableEq

/-- Embeds handleToggleEmailSelection from App.js lines 195-201:
prev.includes(emailId) ? prev.filter(id => id !== emailId) : [...prev, emailId]. -/
def handleToggleEmailSelection (emailId : Nat) (prev : List Nat) : List Nat :=
  if prev.contains emailId then
    prev.filter (fun id => id != emailId)
  else
    prev ++ [emailId]

/-- Embeds handleSelectAll from App.js lines 203-209: clears the selection
when its length equals the category email count, otherwise selects the id
of every displayed email. -/
def handleSelectAll (categoryEmails : List Email) (selectedEmailIds : List Nat) :
    List Nat :=
  if selectedEmailIds.length = categoryEmails.length then
    []
  else
    categoryEmails.map (fun e => e.id)

/-- The slice of React state that handleDeleteSelected reads and writes. -/
structure CategoryViewState where
  categoryEmails : List Email
  selectedEmailIds : List Nat
  deriving Repr, DecidableEq

/-- Embeds handleDeleteSelected from App.js lines 211-230. The confirm
dialog and the HTTP outcome are inputs; the returned Bool records whether
the delete request was issued. On success the displayed list is filtered
and the selection cleared; on failure or cancellation state is unchanged. -/
def handleDeleteSelected (confirmed requestSucceeds : Bool)
    (s : CategoryViewState) : CategoryViewState × Bool :=
  if s.selectedEmailIds.length = 0 then
    (s, false)
  else if !confirmed then
    (s, false)
  else if requestSucceeds then
    ({ categoryEmails :=
         s.categoryEmails.filter (fun e => !(s.selectedEmailIds.contains e.id)),
       selectedEmailIds := [] }, true)
  else
    (s, true)

end Frontend

namespace Backend

/-- Modelled from the spec: bounded-length truncation used for summaries
and body prefixes (spec 4.1, 4.2 say lengths are bounded but fix no
number; one constant bound is used throughout). -/
def summaryBound : Nat := 100

/-- Modelled from the spec: truncation of a string to at most n
characters, keeping a prefix. -/
def strTake (n : Nat) (s : String) : String :=
  ⟨s.data.take n⟩

/-- Modelled from the spec: the per-account batch cap BATCH_SIZE (= 10)
of spec 4.1; the frontend help text in App.js also states the cap of 10. -/
def BATCH_SIZE : Nat := 10

/-- Modelled from the spec: a structured unsubscribe directive found in
message headers, either a direct link or a contact address (spec 4.3). -/
inductive Directive where
  | link (url : String)
  | contact (addr : String)
  deriving Repr, DecidableEq

/-- Modelled from the spec: an HTML anchor of the message body, with its
text and linked target (spec 4.3 mechanism 3). -/
structure Anchor where
  text : String
  href : String
  deriving Repr, DecidableEq

/-- Modelled from the spec: a backend Message as fetched from the
provider (spec section 3), with the header directives and body anchors
the Unsubscribe Resolver inspects already parsed out. -/
structure BMessage where
  remoteId : String
  subject : String
  sender : String
  body : String
  headerDirectives : List Directive
  bodyAnchors : List Anchor
  deriving Repr, DecidableEq

/-- Modelled from the spec: a concrete unsubscribe mechanism (spec 4.3):
header direct link, contact-address-only, or a link from a body anchor. -/
inductive Mechanism where
  | headerLink (url : String)
  | contactAddress (addr : String)
  | bodyLink (url : String)
  deriving Repr, DecidableEq

/-- Lowercasing used for every case-insensitive comparison in the model. -/
def lowerStr (s : String) : String :=
  ⟨s.data.map Char.toLower⟩

/-- Modelled from the spec: the unsubscribe-intent keywords of spec 4.3. -/
def unsubscribeKeywords : List String :=
  ["unsubscribe", "opt out", "manage preferences"]

/-- Boolean test that the list p occurs as a leading segment of l. -/
def leadSeg : List Char → List Char → Bool
  | [], _ => true
  | _ :: _, [] => false
  | a :: as, b :: bs => a == b && leadSeg as bs

/-- Boolean test that the list p occurs contiguously somewhere inside l. -/
def occursIn (p : List Char) : List Char → Bool
  | [] => leadSeg p []
  | b :: bs => leadSeg p (b :: bs) || occursIn p bs

/-- Modelled from the spec: case-insensitive match of an anchor text
against the unsubscribe-intent keywords (spec 4.3 mechanism 3). -/
def anchorMatches (a : Anchor) : Bool :=
  unsubscribeKeywords.any
    (fun k => occursIn (lowerStr k).data (lowerStr a.text).data)

/-- Extracts the url of a direct-link directive, none for contact. -/
def directiveLink : Directive → Option String
  | .link u => some u
  | .contact _ => none

/-- Extracts the address of a contact-address directive, none for link. -/
def directiveContact : Directive → Option String
  | .link _ => none
  | .contact _a => some _a

/-- Modelled from the spec: body scan of spec 4.3 mechanism 3, returning
the linked target of the first anchor whose text matches a keyword. -/
def scanBodyAnchors (anchors : List Anchor) : Option String :=
  (anchors.find? anchorMatches).map (fun a => a.href)

/-- Modelled from the spec: the Unsubscribe Resolver (spec 4.3).
First match wins: header direct link, then header contact address, then
body anchor scan; none when nothing matches. -/
def resolve (m : BMessage) : Option Mechanism :=
  match m.headerDirectives.findSome? directiveLink with
  | some u => some (.headerLink u)
  | none =>
    match m.headerDirectives.findSome? directiveContact with
    | some a => some (.contactAddress a)
    | none =>
      match scanBodyAnchors m.bodyAnchors with
      | some h => some (.bodyLink h)
      | none => none

/-- Modelled from the spec: the interpreted outcome of one HTTP
unsubscribe request after redirects (spec 4.4); ok is false on
non-success status, network error, or failure-indicating response text. -/
structure HttpOutcome where
  ok : Bool
  reason : String

/-- Modelled from the spec: the result of executing one mechanism. -/
structure UnsubResult where
  success : Bool
  reason : String
  deriving Repr, DecidableEq

/-- Modelled from the spec: the Unsubscribe Executor (spec 4.4), with the
network modelled as a function from url to outcome. A contact-address
mechanism always fails with reason "manual action required". -/
def execute (http : String → HttpOutcome) : Mechanism → UnsubResult
  | .headerLink u => let o := http u
    if o.ok then ⟨true, ""⟩ else ⟨false, o.reason⟩
  | .bodyLink u => let o := http u
    if o.ok then ⟨true, ""⟩ else ⟨false, o.reason⟩
  | .contactAddress _ => ⟨false, "manual action required"⟩

/-- Modelled from the spec: one UnsubscribeAttempt result entry
(spec section 3 and 4.5). -/
structure UnsubscribeAttempt where
  messageId : Nat
  success : Bool
  reason : String
  deriving Repr, DecidableEq

/-- Modelled from the spec: processing of a single requested message id
by the Unsubscribe Orchestrator (spec 4.5): look the message up, resolve,
execute; every failure stage yields a failure entry. -/
def attemptOne (store : List (Nat × BMessage)) (http : String → HttpOutcome)
    (id : Nat) : UnsubscribeAttempt :=
  match store.lookup id with
  | none => ⟨id, false, "message not found"⟩
  | some m =>
    match resolve m with
    | none => ⟨id, false, "no unsubscribe mechanism found"⟩
    | some mech =>
      let r := execute http mech
      ⟨id, r.success, r.reason⟩

/-- Modelled from the spec: the Unsubscribe Orchestrator unsubscribeMany
(spec 4.5); results are one per input id in input order. -/
def unsubscribeMany (store : List (Nat × BMessage))
    (http : String → HttpOutcome) (ids : List Nat) : List UnsubscribeAttempt :=
  ids.map (attemptOne store http)

/-- Modelled from the spec: a user-defined Category (spec section 3). -/
structure Category where
  id : Nat
  name : String
  description : String
  deriving Repr, DecidableEq

/-- Modelled from the spec: the parsed model response of spec 4.2, whose
fields may each be missing when the output is malformed; an unparseable,
empty or timed-out response is represented as none at the call site. -/
structure ModelResponse where
  categoryName : Option String
  summary : Option String
  deriving Repr, DecidableEq

/-- Modelled from the spec: case-insensitive lookup of a category by
name in the supplied category list (spec 4.2 validation gate). -/
def lookupCategory (cats : List Category) (name : String) : Option Category :=
  cats.find? (fun c => lowerStr c.name == lowerStr name)

/-- Modelled from the spec: the validation gate of the Classification
Oracle Adapter (spec 4.2). Accepts only a response naming a category that
case-insensitively matches one in the supplied list together with a
summary; everything else is a classification failure (none). The summary
is truncated to the output bound. -/
def validateResponse (cats : List Category) :
    Option ModelResponse → Option (Category × String)
  | none => none
  | some r =>
    match r.categoryName, r.summary with
    | some name, some s =>
      match lookupCategory cats name with
      | some c => some (c, strTake summaryBound s)
      | none => none
    | some _, none => none
    | none, _ => none

/-- Modelled from the spec: a stored Message after classification
(spec section 3 and 4.1): category and summary are null until classified. -/
structure ProcessedMsg where
  remoteId : String
  category : Option String
  summary : Option String
  processed : Bool
  deriving Repr, DecidableEq

/-- Modelled from the spec: per-message classification step of the
Ingestion Orchestrator (spec 4.1): on success record category and
summary; on any failure assign "Uncategorized" with a bounded-length
prefix of the body as summary; either way mark the message processed. -/
def processMessage (cats : List Category) (resp : Option ModelResponse)
    (m : BMessage) : ProcessedMsg :=
  match validateResponse cats resp with
  | some (c, s) =>
    { remoteId := m.remoteId, category := some c.name,
      summary := some s, processed := true }
  | none =>
    { remoteId := m.remoteId, category := some "Uncategorized",
      summary := some (strTake summaryBound m.body), processed := true }

/-- Modelled from the spec: sequential classification of one fetched
batch (spec 4.1, section 5); the oracle gives each message its model
response (none for a timeout or garbled output). One failure never
aborts the batch: every message is processed. -/
def classifyBatch (cats : List Category) (oracle : BMessage → Option ModelResponse)
    (msgs : List BMessage) : List ProcessedMsg :=
  msgs.map (fun m => processMessage cats (oracle m) m)

/-- Modelled from the spec: a linked mailbox account with its current
unread inbox messages at the provider, in provider order (spec 6
listUnread). -/
structure Account where
  id : Nat
  unread : List BMessage
  deriving Repr

/-- Modelled from the spec: the per-account fetch of spec 4.1: up to
BATCH_SIZE unread messages whose remote ids are not in the Dedup Ledger,
provider order preserved. -/
def fetchForAccount (ledger : List String) (acc : Account) : List BMessage :=
  (acc.unread.filter (fun m => !(ledger.contains m.remoteId))).take BATCH_SIZE

/-- Modelled from the spec: all messages fetched in one run across the
linked accounts, each account filtered against the ledger as it stood at
run start (cross-account ordering is unspecified; account order is used). -/
def fetchRun (ledger : List String) (accounts : List Account) : List BMessage :=
  (accounts.map (fetchForAccount ledger)).flatten

/-- Modelled from the spec: the persistent state the Ingestion
Orchestrator reads and writes: the Dedup Ledger of processed remote ids
and the stored messages (spec section 3, 4.1). -/
structure IngestState where
  ledger : List String
  messages : List ProcessedMsg
  deriving Repr

/-- Modelled from the spec: one ingestion run (spec 4.1 runIngestion):
fetch up to BATCH_SIZE per account excluding ledger entries, classify
each fetched message with fallback, append all fetched remote ids to the
Dedup Ledger; returns the new state and the processed-message count. -/
def runIngestion (cats : List Category) (oracle : BMessage → Option ModelResponse)
    (accounts : List Account) (st : IngestState) : IngestState × Nat :=
  let fetched := fetchRun st.ledger accounts
  let processed := classifyBatch cats oracle fetched
  ({ ledger := st.ledger ++ fetched.map (fun m => m.remoteId),
     messages := st.messages ++ processed }, fetched.length)

/-- Modelled from the spec: deleteMessages (spec 6, section 3 lifecycle):
removes the messages with the given remote ids from categorized views;
the Dedup Ledger entries persist. -/
def deleteMessages (rids : List String) (st : IngestState) : IngestState :=
  { ledger := st.ledger,
    messages := st.messages.filter (fun m => !(rids.contains m.remoteId)) }

/-- Modelled from the spec: an operation applied to the ingest state
after a remote id entered the ledger: a later ingestion run over some
accounts, or a local deletion of messages. -/
inductive IngestOp where
  | run (accounts : List Account)
  | delete (rids : List String)

/-- Modelled from the spec: applying a sequence of later runs and
deletions to the state. -/
def applyOps (cats : List Category) (oracle : BMessage → Option ModelResponse) :
    List IngestOp → IngestState → IngestState
  | [], st => st
  | IngestOp.run accounts :: rest, st =>
    applyOps cats oracle rest (runIngestion cats oracle accounts st).1
  | IngestOp.delete rids :: rest, st =>
    applyOps cats oracle rest (deleteMessages rids st)

/-- Modelled from the spec: the per-user run-exclusivity table of the
Ingestion Orchestrator (spec 4.1, section 9): the active runs, one per
user at most, and the next fresh run identifier. -/
structure RunTable where
  active : List (Nat × Nat)
  nextRunId : Nat
  deriving Repr

/-- Modelled from the spec: what one ingestion trigger call produced:
the run identifier returned to the caller, whether a new run was
started, how many messages this call fetched and classified, and the
resulting ingest state and run table. -/
structure TriggerOut where
  runId : Nat
  startedNew : Bool
  fetchedCount : Nat
  ingest : IngestState
  table : RunTable

/-- Modelled from the spec: triggerIngestion (spec 4.1, 6): while a run
for the user is active, return the in-flight run identifier and do
nothing else; otherwise start a new run with a fresh identifier. -/
def triggerIngestion (cats : List Category)
    (oracle : BMessage → Option ModelResponse) (u : Nat)
    (accounts : List Account) (ist : IngestState) (rt : RunTable) : TriggerOut :=
  match rt.active.lookup u with
  | some rid =>
    { runId := rid, startedNew := false, fetchedCount := 0,
      ingest := ist, table := rt }
  | none =>
    let out := runIngestion cats oracle accounts ist
    { runId := rt.nextRunId, startedNew := true, fetchedCount := out.2,
      ingest := out.1,
      table := { active := (u, rt.nextRunId) :: rt.active,
                 nextRunId := rt.nextRunId + 1 } }

end Backend

namespace Frontend

/-- Filtering with a disequality test against an element not in the list
leaves the list unchanged. -/
theorem filter_bne_self (a : Nat) (l : List Nat) (h : a ∉ l) :
    l.filter (fun x => x != a) = l := by
  rw [List.filter_eq_self]
  intro b hb
  simp only [bne_iff_ne, ne_eq]
  rintro rfl
  exact h hb

/-- C8 (amended): with no duplicate ids in the selection, toggling the
same id twice returns the selection to a permutation of its original
value, and exactly to the original value when the id was absent; a
single toggle appends the id when absent, and when present removes it
while leaving membership of every other id unchanged. Additionally,
when the id was present, the double toggle yields the original list
with that id moved to the end. -/
theorem toggle_selection_spec (emailId : Nat) (prev : List Nat)
    (hn : prev.Nodup) :
    List.Perm
      (handleToggleEmailSelection emailId
        (handleToggleEmailSelection emailId prev)) prev ∧
    (emailId ∉ prev →
      handleToggleEmailSelection emailId
        (handleToggleEmailSelection emailId prev) = prev) ∧
    (emailId ∈ prev →
      handleToggleEmailSelection emailId
        (handleToggleEmailSelection emailId prev) =
        prev.erase emailId ++ [emailId]) ∧
    (emailId ∉ prev →
      handleToggleEmailSelection emailId prev = prev ++ [emailId]) ∧
    (emailId ∈ prev →
      emailId ∉ handleToggleEmailSelection emailId prev ∧
      ∀ b, b ≠ emailId →
        (b ∈ handleToggleEmailSelection emailId prev ↔ b ∈ prev)) := by
  by_cases h : emailId ∈ prev
  · have h1 : handleToggleEmailSelection emailId prev =
        prev.filter (fun x => x != emailId) := by
      simp [handleToggleEmailSelection, h]
    have hna : emailId ∉ prev.filter (fun x => x != emailId) := by
      simp [List.mem_filter]
    have h2 : handleToggleEmailSelection emailId
        (handleToggleEmailSelection emailId prev) =
        prev.filter (fun x => x != emailId) ++ [emailId] := by
      rw [h1]
      simp [handleToggleEmailSelection, hna]
    refine ⟨?_, fun hab => absurd h hab, fun _ => ?_,
      fun hab => absurd h hab, fun _ => ⟨?_, ?_⟩⟩
    · rw [h2, ← hn.erase_eq_filter emailId]
      exact (List.perm_append_singleton emailId _).trans
        (List.perm_cons_erase h).symm
    · rw [h2, ← hn.erase_eq_filter emailId]
    · rw [h1]; exact hna
    · intro b hb
      rw [h1]
      simp [List.mem_filter, hb]
  · have h1 : handleToggleEmailSelection emailId prev = prev ++ [emailId] := by
      simp [handleToggleEmailSelection, h]
    have h2 : handleToggleEmailSelection emailId
        (handleToggleEmailSelection emailId prev) =
        (prev ++ [emailId]).filter (fun x => x != emailId) := by
      rw [h1]; simp [handleToggleEmailSelection]
    have h3 : handleToggleEmailSelection emailId
        (handleToggleEmailSelection emailId prev) = prev := by
      rw [h2, List.filter_append, filter_bne_self emailId prev h]
      simp
    exact ⟨by rw [h3], fun _ => h3, fun hmem => absurd hmem h,
      fun _ => h1, fun hmem => absurd hmem h⟩

/-- C8 witness: the amended theorem applied at id 2 and selection
[2, 3]. -/
theorem toggle_selection_spec_witness :
    ([2, 3] : List Nat).Nodup ∧
    List.Perm (handleToggleEmailSelection 2
      (handleToggleEmailSelection 2 [2, 3])) [2, 3] :=
  ⟨by decide, (toggle_selection_spec 2 [2, 3] (by decide)).1⟩

/-- C8 counterexample: toggling id 1 twice on the duplicate-free
selection [1, 2] yields [2, 1], not the original value [1, 2], so the
claim as stated (the selection returns to its original value) is false. -/
theorem toggle_twice_counterexample :
    ([1, 2] : List Nat).Nodup ∧
    handleToggleEmailSelection 1
      (handleToggleEmailSelection 1 [1, 2]) ≠ [1, 2] := by
  decide

/-- C9 (amended): after handleSelectAll the selection is either empty or
exactly the id list of the displayed category emails; it is empty if and
only if the prior selection length equals the displayed email count or
there are zero displayed emails, and otherwise it is the full id list. -/
theorem select_all_spec (ce : List Email) (sel : List Nat) :
    (handleSelectAll ce sel = [] ∨
      handleSelectAll ce sel = ce.map (fun e => e.id)) ∧
    (handleSelectAll ce sel = [] ↔ (sel.length = ce.length ∨ ce = [])) ∧
    (¬ sel.length = ce.length → ce ≠ [] →
      handleSelectAll ce sel = ce.map (fun e => e.id)) := by
  by_cases h : sel.length = ce.length
  · refine ⟨Or.inl ?_, ?_, ?_⟩
    · simp [handleSelectAll, h]
    · simp [handleSelectAll, h]
    · intro hc
      exact absurd h hc
  · refine ⟨Or.inr ?_, ?_, ?_⟩
    · simp [handleSelectAll, h]
    · simp [handleSelectAll, h, List.map_eq_nil_iff]
    · intro _ _
      simp [handleSelectAll, h]

/-- C9 witness: with one displayed email and an empty prior selection the
result is the full id list. -/
theorem select_all_spec_witness :
    handleSelectAll [⟨5, "x"⟩] [] = [5] :=
  (select_all_spec [⟨5, "x"⟩] []).2.2 (by decide) (by decide)

/-- C9 counterexample: with zero displayed emails and prior selection
[1] the result is empty although the prior selection length 1 differs
from the displayed count 0, refuting the claimed equivalence. -/
theorem select_all_counterexample :
    handleSelectAll ([] : List Email) [1] = [] ∧
    ¬ (([1] : List Nat).length = ([] : List Email).length) :=
  ⟨rfl, by decide⟩

/-- C10: with an empty selection handleDeleteSelected issues no request
and leaves the state unchanged; with a non-empty confirmed selection and
a successful request, the request is issued, the selection is cleared,
and the displayed list becomes the prior list with exactly the emails
whose id was selected removed, others kept in order. -/
theorem delete_selected_spec (confirmed requestSucceeds : Bool)
    (s : CategoryViewState) :
    (s.selectedEmailIds = [] →
      handleDeleteSelected confirmed requestSucceeds s = (s, false)) ∧
    (s.selectedEmailIds ≠ [] → confirmed = true → requestSucceeds = true →
      ((handleDeleteSelected confirmed requestSucceeds s).2 = true ∧
       (handleDeleteSelected confirmed requestSucceeds s).1.selectedEmailIds
         = [] ∧
       (handleDeleteSelected confirmed requestSucceeds s).1.categoryEmails =
         s.categoryEmails.filter
           (fun e => decide (e.id ∉ s.selectedEmailIds)))) := by
  constructor
  · intro h
    simp [handleDeleteSelected, h]
  · intro h hc hr
    subst hc
    subst hr
    have hl : ¬ s.selectedEmailIds.length = 0 := by
      simpa [List.length_eq_zero] using h
    have hfun : (fun e : Email => !(s.selectedEmailIds.contains e.id)) =
        fun e => decide (e.id ∉ s.selectedEmailIds) := by
      funext e
      simp [decide_not]
    refine ⟨?_, ?_, ?_⟩ <;> simp [handleDeleteSelected, hl, hfun]

/-- C10 witness: deleting the selected id 1 from a two-email view keeps
only the email with id 2 and clears the selection. -/
theorem delete_selected_spec_witness :
    (handleDeleteSelected true true ⟨[⟨1, "a"⟩, ⟨2, "b"⟩], [1]⟩).2 = true ∧
    (handleDeleteSelected true true
      ⟨[⟨1, "a"⟩, ⟨2, "b"⟩], [1]⟩).1.selectedEmailIds = [] ∧
    (handleDeleteSelected true true
      ⟨[⟨1, "a"⟩, ⟨2, "b"⟩], [1]⟩).1.categoryEmails =
      List.filter (fun e => decide (e.id ∉ ([1] : List Nat)))
        [⟨1, "a"⟩, ⟨2, "b"⟩] :=
  (delete_selected_spec true true ⟨[⟨1, "a"⟩, ⟨2, "b"⟩], [1]⟩).2
    (by decide) rfl rfl

end Frontend

namespace Backend

/-- Every attempt entry carries the id it was produced for, whatever
branch the lookup, resolution and execution took. -/
theorem attemptOne_messageId (store : List (Nat × BMessage))
    (http : String → HttpOutcome) (id : Nat) :
    (attemptOne store http id).messageId = id := by
  unfold attemptOne
  split
  · rfl
  · split
    · rfl
    · rfl

/-- C1: unsubscribeMany returns exactly one result per input id, in
input order (hence exactly as many results as inputs, duplicates and
unknown ids included), and every enumerated per-id failure — message
not found, no resolvable mechanism, execution failure — yields a
failure entry in that list rather than aborting the batch; the function
is total, so no per-id failure raises to the caller. -/
theorem unsubscribeMany_spec (store : List (Nat × BMessage))
    (http : String → HttpOutcome) (ids : List Nat) :
    (unsubscribeMany store http ids).map
      (fun a => a.messageId) = ids ∧
    (unsubscribeMany store http ids).length = ids.length ∧
    (∀ id ∈ ids, store.lookup id = none →
      (⟨id, false, "message not found"⟩ : UnsubscribeAttempt) ∈
        unsubscribeMany store http ids) ∧
    (∀ id ∈ ids, ∀ m, store.lookup id = some m → resolve m = none →
      (⟨id, false, "no unsubscribe mechanism found"⟩ : UnsubscribeAttempt) ∈
        unsubscribeMany store http ids) ∧
    (∀ id ∈ ids, ∀ m mech, store.lookup id = some m →
      resolve m = some mech → (execute http mech).success = false →
      (⟨id, false, (execute http mech).reason⟩ : UnsubscribeAttempt) ∈
        unsubscribeMany store http ids) := by
  refine ⟨?_, ?_, ?_, ?_, ?_⟩
  · rw [unsubscribeMany, List.map_map]
    have h : ((fun a : UnsubscribeAttempt => a.messageId) ∘
        attemptOne store http) = id := by
      funext i
      exact attemptOne_messageId store http i
    rw [h, List.map_id]
  · simp [unsubscribeMany]
  · intro i hi hnone
    have h : attemptOne store http i =
        (⟨i, false, "message not found"⟩ : UnsubscribeAttempt) := by
      unfold attemptOne
      rw [hnone]
    exact h ▸ List.mem_map_of_mem (attemptOne store http) hi
  · intro i hi m hsome hres
    have h : attemptOne store http i =
        (⟨i, false, "no unsubscribe mechanism found"⟩ : UnsubscribeAttempt) := by
      simp only [attemptOne, hsome, hres]
    exact h ▸ List.mem_map_of_mem (attemptOne store http) hi
  · intro i hi m mech hsome hres hfail
    have h : attemptOne store http i =
        (⟨i, false, (execute http mech).reason⟩ : UnsubscribeAttempt) := by
      simp only [attemptOne, hsome, hres]
      simp [hfail]
    exact h ▸ List.mem_map_of_mem (attemptOne store http) hi

/-- C1 witness: three requested ids hit the three failure kinds — an
unknown id, a message with no resolvable mechanism, and a
contact-address mechanism whose execution fails — and each appears as a
failure entry of the result list. -/
theorem unsubscribeMany_spec_witness :
    (⟨7, false, "message not found"⟩ : UnsubscribeAttempt) ∈
      unsubscribeMany
        [(1, ⟨"r1", "s", "snd", "b", [], []⟩),
         (2, ⟨"r2", "s", "snd", "b", [Directive.contact "a@b"], []⟩)]
        (fun _ => ⟨true, ""⟩) [7, 1, 2] ∧
    (⟨1, false, "no unsubscribe mechanism found"⟩ : UnsubscribeAttempt) ∈
      unsubscribeMany
        [(1, ⟨"r1", "s", "snd", "b", [], []⟩),
         (2, ⟨"r2", "s", "snd", "b", [Directive.contact "a@b"], []⟩)]
        (fun _ => ⟨true, ""⟩) [7, 1, 2] ∧
    (⟨2, false,
        (execute (fun _ => ⟨true, ""⟩)
          (Mechanism.contactAddress "a@b")).reason⟩ : UnsubscribeAttempt) ∈
      unsubscribeMany
        [(1, ⟨"r1", "s", "snd", "b", [], []⟩),
         (2, ⟨"r2", "s", "snd", "b", [Directive.contact "a@b"], []⟩)]
        (fun _ => ⟨true, ""⟩) [7, 1, 2] :=
  ⟨(unsubscribeMany_spec
      [(1, ⟨"r1", "s", "snd", "b", [], []⟩),
       (2, ⟨"r2", "s", "snd", "b", [Directive.contact "a@b"], []⟩)]
      (fun _ => ⟨true, ""⟩) [7, 1, 2]).2.2.1 7 (by decide) rfl,
   (unsubscribeMany_spec
      [(1, ⟨"r1", "s", "snd", "b", [], []⟩),
       (2, ⟨"r2", "s", "snd", "b", [Directive.contact "a@b"], []⟩)]
      (fun _ => ⟨true, ""⟩) [7, 1, 2]).2.2.2.1 1 (by decide)
      ⟨"r1", "s", "snd", "b", [], []⟩ rfl rfl,
   (unsubscribeMany_spec
      [(1, ⟨"r1", "s", "snd", "b", [], []⟩),
       (2, ⟨"r2", "s", "snd", "b", [Directive.contact "a@b"], []⟩)]
      (fun _ => ⟨true, ""⟩) [7, 1, 2]).2.2.2.2 2 (by decide)
      ⟨"r2", "s", "snd", "b", [Directive.contact "a@b"], []⟩
      (Mechanism.contactAddress "a@b") rfl rfl rfl⟩

/-- C6: whenever the validation gate accepts a model response, the
returned category is a member of the supplied list and its name
case-insensitively matches the name the response carried; so the adapter
never returns a category outside the supplied set. Responses with a
missing category field, a missing summary, or no parseable content at
all are rejected by construction (they hit the none branches). -/
theorem validateResponse_spec (cats : List Category)
    (resp : Option ModelResponse) (c : Category) (s : String) :
    validateResponse cats resp = some (c, s) →
      c ∈ cats ∧
      ∃ r name, resp = some r ∧ r.categoryName = some name ∧
        lowerStr c.name = lowerStr name := by
  intro h
  match resp with
  | none => simp [validateResponse] at h
  | some r =>
    match hr1 : r.categoryName, hr2 : r.summary with
    | some name, some sum =>
      simp only [validateResponse, hr1, hr2] at h
      match hc : lookupCategory cats name with
      | none => rw [hc] at h; exact absurd h (by simp)
      | some c0 =>
        rw [hc] at h
        have hcc : c0 = c := by
          have := Option.some.inj h
          exact congrArg Prod.fst this
        have hfind : cats.find?
            (fun cc => lowerStr cc.name == lowerStr name) = some c := by
          rw [← hcc]; exact hc
        refine ⟨List.mem_of_find?_eq_some hfind, r, name, rfl, hr1, ?_⟩
        have hbeq := List.find?_some hfind
        simp only [] at hbeq
        exact eq_of_beq hbeq
    | some name, none =>
      simp [validateResponse, hr1, hr2] at h
    | none, _ =>
      simp [validateResponse, hr1] at h

/-- C6 witness: a response naming "promotions" against a list holding
"Promotions" is accepted with that category. -/
theorem validateResponse_spec_witness :
    (⟨1, "Promotions", "marketing"⟩ : Category) ∈
        [(⟨1, "Promotions", "marketing"⟩ : Category)] ∧
    ∃ r name,
      (some ⟨some "promotions", some "sale"⟩ : Option ModelResponse) = some r ∧
      r.categoryName = some name ∧
      lowerStr "Promotions" = lowerStr name :=
  validateResponse_spec [⟨1, "Promotions", "marketing"⟩]
    (some ⟨some "promotions", some "sale"⟩)
    ⟨1, "Promotions", "marketing"⟩ (strTake summaryBound "sale") (by decide)

/-- Truncation really is bounded: the result never exceeds the bound. -/
theorem strTake_length_le (n : Nat) (s : String) :
    (strTake n s).length ≤ n := by
  show (s.data.take n).length ≤ n
  simp

/-- C2: classifying a batch processes every message (one failure never
aborts the batch), every output is marked processed with a non-null
category, and a message whose classification fails for any reason is
assigned "Uncategorized" with the bounded-length prefix of its body as
summary while still appearing in the batch output. -/
theorem classifyBatch_fallback_spec (cats : List Category)
    (oracle : BMessage → Option ModelResponse) (msgs : List BMessage) :
    (classifyBatch cats oracle msgs).length = msgs.length ∧
    (∀ p ∈ classifyBatch cats oracle msgs,
      p.processed = true ∧ p.category.isSome = true) ∧
    (∀ m ∈ msgs, validateResponse cats (oracle m) = none →
      (processMessage cats (oracle m) m).category = some "Uncategorized" ∧
      (processMessage cats (oracle m) m).summary =
        some (strTake summaryBound m.body) ∧
      (strTake summaryBound m.body).length ≤ summaryBound ∧
      processMessage cats (oracle m) m ∈ classifyBatch cats oracle msgs) := by
  refine ⟨by simp [classifyBatch], ?_, ?_⟩
  · intro p hp
    rw [classifyBatch, List.mem_map] at hp
    obtain ⟨m, _, hm⟩ := hp
    subst hm
    unfold processMessage
    split
    · exact ⟨rfl, rfl⟩
    · exact ⟨rfl, rfl⟩
  · intro m hm hfail
    have hproc : processMessage cats (oracle m) m =
        { remoteId := m.remoteId, category := some "Uncategorized",
          summary := some (strTake summaryBound m.body), processed := true } := by
      unfold processMessage
      rw [hfail]
    refine ⟨by rw [hproc], by rw [hproc], strTake_length_le _ _, ?_⟩
    exact List.mem_map_of_mem (fun m => processMessage cats (oracle m) m) hm

/-- C2 witness: with no categories supplied and an oracle that times out,
the single message of the batch lands in "Uncategorized" with its body
prefix as summary and is still part of the batch output. -/
theorem classifyBatch_fallback_spec_witness :
    (processMessage [] none
        ⟨"r1", "s", "snd", "body text", [], []⟩).category =
      some "Uncategorized" ∧
    (processMessage [] none
        ⟨"r1", "s", "snd", "body text", [], []⟩).summary =
      some (strTake summaryBound "body text") ∧
    (strTake summaryBound "body text").length ≤ summaryBound ∧
    processMessage [] none ⟨"r1", "s", "snd", "body text", [], []⟩ ∈
      classifyBatch [] (fun _ => none) [⟨"r1", "s", "snd", "body text", [], []⟩] :=
  (classifyBatch_fallback_spec [] (fun _ => none)
    [⟨"r1", "s", "snd", "body text", [], []⟩]).2.2
    ⟨"r1", "s", "snd", "body text", [], []⟩ (by simp) rfl

/-- Each account contributes at most BATCH_SIZE fetched messages. -/
theorem fetchForAccount_length_le (ledger : List String) (acc : Account) :
    (fetchForAccount ledger acc).length ≤ BATCH_SIZE := by
  simp [fetchForAccount]

/-- The whole run fetches at most BATCH_SIZE messages per account. -/
theorem fetchRun_length_le (ledger : List String) (accounts : List Account) :
    (fetchRun ledger accounts).length ≤ BATCH_SIZE * accounts.length := by
  induction accounts with
  | nil => simp [fetchRun]
  | cons a rest ih =>
    simp only [fetchRun, List.map_cons, List.flatten_cons,
      List.length_append, List.length_cons] at *
    calc (fetchForAccount ledger a).length +
        ((rest.map (fetchForAccount ledger)).flatten).length
        ≤ BATCH_SIZE + BATCH_SIZE * rest.length :=
          Nat.add_le_add (fetchForAccount_length_le ledger a) ih
      _ = BATCH_SIZE * (rest.length + 1) := by ring

/-- C3: the processed-message count of an ingestion run is at most
BATCH_SIZE (= 10) times the number of linked accounts, because each
account contributes at most BATCH_SIZE fetched unread messages. -/
theorem runIngestion_batch_cap (cats : List Category)
    (oracle : BMessage → Option ModelResponse) (accounts : List Account)
    (st : IngestState) :
    (runIngestion cats oracle accounts st).2 ≤
      BATCH_SIZE * accounts.length := by
  show (fetchRun st.ledger accounts).length ≤ BATCH_SIZE * accounts.length
  exact fetchRun_length_le st.ledger accounts

/-- C4: triggering ingestion for a user while a run for that user is
active returns the in-flight run identifier, starts no new run, fetches
and classifies nothing, and leaves both the ingest state and the run
table unchanged. -/
theorem trigger_exclusivity (cats : List Category)
    (oracle : BMessage → Option ModelResponse) (u : Nat)
    (accounts : List Account) (ist : IngestState) (rt : RunTable)
    (rid : Nat) :
    rt.active.lookup u = some rid →
      (triggerIngestion cats oracle u accounts ist rt).runId = rid ∧
      (triggerIngestion cats oracle u accounts ist rt).startedNew = false ∧
      (triggerIngestion cats oracle u accounts ist rt).fetchedCount = 0 ∧
      (triggerIngestion cats oracle u accounts ist rt).ingest = ist ∧
      (triggerIngestion cats oracle u accounts ist rt).table = rt := by
  intro h
  simp [triggerIngestion, h]

/-- C4 witness: with run 42 active for user 1, a second trigger returns
42 and changes nothing. -/
theorem trigger_exclusivity_witness :
    (triggerIngestion [] (fun _ => none) 1 [] ⟨[], []⟩
        ⟨[(1, 42)], 43⟩).runId = 42 ∧
    (triggerIngestion [] (fun _ => none) 1 [] ⟨[], []⟩
        ⟨[(1, 42)], 43⟩).startedNew = false ∧
    (triggerIngestion [] (fun _ => none) 1 [] ⟨[], []⟩
        ⟨[(1, 42)], 43⟩).fetchedCount = 0 ∧
    (triggerIngestion [] (fun _ => none) 1 [] ⟨[], []⟩
        ⟨[(1, 42)], 43⟩).ingest = ⟨[], []⟩ ∧
    (triggerIngestion [] (fun _ => none) 1 [] ⟨[], []⟩
        ⟨[(1, 42)], 43⟩).table = ⟨[(1, 42)], 43⟩ :=
  trigger_exclusivity [] (fun _ => none) 1 [] ⟨[], []⟩
    ⟨[(1, 42)], 43⟩ 42 rfl

/-- A fetched message never carries a remote id that is already in the
ledger the fetch was filtered against. -/
theorem fetchRun_not_in_ledger (ledger : List String)
    (accounts : List Account) (m : BMessage)
    (hm : m ∈ fetchRun ledger accounts) : m.remoteId ∉ ledger := by
  rw [fetchRun, List.mem_flatten] at hm
  obtain ⟨l, hl, hml⟩ := hm
  rw [List.mem_map] at hl
  obtain ⟨acc, _, hacc⟩ := hl
  subst hacc
  have hfil : m ∈ acc.unread.filter
      (fun mm => !(ledger.contains mm.remoteId)) :=
    List.mem_of_mem_take hml
  have := (List.mem_filter.mp hfil).2
  simpa using this

/-- C5: a remote id recorded in the Dedup Ledger is never fetched again:
it is absent from the fetch of the current run, it stays in the ledger
across any sequence of later ingestion runs and local deletions (in
particular deleting a Message leaves the ledger unchanged), so no later
run ever fetches a message with that remote id. -/
theorem dedup_ledger_spec (cats : List Category)
    (oracle : BMessage → Option ModelResponse) (rid : String) :
    (∀ ledger accounts, rid ∈ ledger →
      ∀ m ∈ fetchRun ledger accounts, m.remoteId ≠ rid) ∧
    (∀ st ops, rid ∈ st.ledger →
      rid ∈ (applyOps cats oracle ops st).ledger) ∧
    (∀ rids st, (deleteMessages rids st).ledger = st.ledger) ∧
    (∀ st ops accounts, rid ∈ st.ledger →
      ∀ m ∈ fetchRun (applyOps cats oracle ops st).ledger accounts,
        m.remoteId ≠ rid) := by
  have h1 : ∀ ledger accounts, rid ∈ ledger →
      ∀ m ∈ fetchRun ledger accounts, m.remoteId ≠ rid := by
    intro ledger accounts hmem m hm heq
    exact (fetchRun_not_in_ledger ledger accounts m hm) (heq ▸ hmem)
  have h2 : ∀ ops st, rid ∈ st.ledger →
      rid ∈ (applyOps cats oracle ops st).ledger := by
    intro ops
    induction ops with
    | nil => intro st h; exact h
    | cons op rest ih =>
      intro st h
      cases op with
      | run accounts =>
        exact ih _ (List.mem_append_left _ h)
      | delete rids =>
        exact ih _ h
  exact ⟨h1, fun st ops => h2 ops st, fun rids st => rfl,
    fun st ops accounts h => h1 _ accounts (h2 ops st h)⟩

/-- C5 witness: ledger entry "x" survives a later run and a deletion. -/
theorem dedup_ledger_spec_witness :
    "x" ∈ (applyOps [] (fun _ => none)
      [IngestOp.run [], IngestOp.delete ["x"]] ⟨["x"], []⟩).ledger :=
  (dedup_ledger_spec [] (fun _ => none) "x").2.1 ⟨["x"], []⟩
    [IngestOp.run [], IngestOp.delete ["x"]] (by simp)

/-- A directive list with no direct-link directive yields no link. -/
theorem findSomeLink_eq_none (ds : List Directive)
    (h : ∀ u, Directive.link u ∉ ds) :
    ds.findSome? directiveLink = none := by
  rw [List.findSome?_eq_none_iff]
  intro d hd
  cases d with
  | link u => exact absurd hd (h u)
  | contact a => rfl

/-- A directive list with no contact directive yields no address. -/
theorem findSomeContact_eq_none (ds : List Directive)
    (h : ∀ a, Directive.contact a ∉ ds) :
    ds.findSome? directiveContact = none := by
  rw [List.findSome?_eq_none_iff]
  intro d hd
  cases d with
  | link u => rfl
  | contact a => exact absurd hd (h a)

/-- C7: resolve searches mechanisms in fixed priority order with first
match winning: a header direct link beats everything; with no header
link, a header contact address wins; with neither, the body anchor scan
decides; and when the headers hold no directive and no body anchor text
matches an unsubscribe keyword, resolve returns none. -/
theorem resolve_priority_spec (m : BMessage) :
    ((∃ u, Directive.link u ∈ m.headerDirectives) →
      ∃ u, Directive.link u ∈ m.headerDirectives ∧
        resolve m = some (Mechanism.headerLink u)) ∧
    ((∀ u, Directive.link u ∉ m.headerDirectives) →
      (∃ a, Directive.contact a ∈ m.headerDirectives) →
      ∃ a, Directive.contact a ∈ m.headerDirectives ∧
        resolve m = some (Mechanism.contactAddress a)) ∧
    ((∀ u, Directive.link u ∉ m.headerDirectives) →
      (∀ a, Directive.contact a ∉ m.headerDirectives) →
      ∀ h, scanBodyAnchors m.bodyAnchors = some h →
        resolve m = some (Mechanism.bodyLink h)) ∧
    ((∀ u, Directive.link u ∉ m.headerDirectives) →
      (∀ a, Directive.contact a ∉ m.headerDirectives) →
      (∀ x ∈ m.bodyAnchors, anchorMatches x = false) →
      resolve m = none) := by
  refine ⟨?_, ?_, ?_, ?_⟩
  · rintro ⟨u, hu⟩
    cases hfs : m.headerDirectives.findSome? directiveLink with
    | none =>
      rw [List.findSome?_eq_none_iff] at hfs
      have := hfs (Directive.link u) hu
      simp [directiveLink] at this
    | some u2 =>
      refine ⟨u2, ?_, by simp [resolve, hfs]⟩
      obtain ⟨d, hd, hfd⟩ := List.exists_of_findSome?_eq_some hfs
      cases d with
      | link v =>
        have : v = u2 := by simpa [directiveLink] using hfd
        exact this ▸ hd
      | contact a => simp [directiveLink] at hfd
  · intro hno ⟨a, ha⟩
    have hlink := findSomeLink_eq_none m.headerDirectives hno
    cases hfc : m.headerDirectives.findSome? directiveContact with
    | none =>
      rw [List.findSome?_eq_none_iff] at hfc
      have := hfc (Directive.contact a) ha
      simp [directiveContact] at this
    | some a2 =>
      refine ⟨a2, ?_, by simp [resolve, hlink, hfc]⟩
      obtain ⟨d, hd, hfd⟩ := List.exists_of_findSome?_eq_some hfc
      cases d with
      | link v => simp [directiveContact] at hfd
      | contact b =>
        have : b = a2 := by simpa [directiveContact] using hfd
        exact this ▸ hd
  · intro hno hnoc h hscan
    have hlink := findSomeLink_eq_none m.headerDirectives hno
    have hcon := findSomeContact_eq_none m.headerDirectives hnoc
    simp [resolve, hlink, hcon, hscan]
  · intro hno hnoc hnob
    have hlink := findSomeLink_eq_none m.headerDirectives hno
    have hcon := findSomeContact_eq_none m.headerDirectives hnoc
    have hfind : m.bodyAnchors.find? anchorMatches = none := by
      rw [List.find?_eq_none]
      intro x hx
      simp [hnob x hx]
    simp [resolve, hlink, hcon, scanBodyAnchors, hfind]

/-- C7 witness: a message with no header directive and no body anchor
resolves to none. -/
theorem resolve_priority_spec_witness :
    resolve ⟨"r", "s", "snd", "b", [], []⟩ = none :=
  (resolve_priority_spec ⟨"r", "s", "snd", "b", [], []⟩).2.2.2
    (fun u h => by simp at h) (fun a h => by simp at h)
    (fun x hx => by simp at hx)

end Backend
